import Mathlib

/-!
Shallow embedding of the fiber_limiter middleware (src/main.go) and of the
parts of the go_limiter rate engine that the middleware delegates to.

Conventions of the embedding:
- Go `time.Duration` and nanosecond timestamps are `Int` (int64 values).
- A `*redis.Client` is abstracted to presence: `rediserPresent : Bool`
  (the middleware only ever checks it against nil and hands it to the
  limiter, whose store behaviour is abstracted by the per-request outcome
  of `limiter.Allow`).
- The effects the returned handler performs on the fiber context are
  recorded as a trace of `Action`s, in program order: calling `c.Next()`,
  calling `limiter.Allow` (with the key and limit it was given), setting a
  response header, and the effects of the limit handler
  (`c.Status(...)`, `c.SendString(...)`).
- Go closures in `New` capture the local `config` variable, so the default
  `Handler` and `Key` closures observe the fully defaulted config at call
  time; the embedding reflects this by resolving those two defaults at
  dispatch time (`handlerActions`, `keyOf`) on the defaulted config.
-/

namespace FiberLimiter

/-- go_limiter.Limit as constructed by New in src/main.go: Period (a
time.Duration), Algorithm (a string), Rate and Burst (int64, converted
from the config's int fields). -/
structure Limit where
  period : Int
  algorithm : String
  rate : Int
  burst : Int
deriving DecidableEq, Repr

/-- The request data the middleware can consult: the remote IP (used by the
default key extractor) and an opaque tag standing for everything else a
custom Filter or Key function might inspect. -/
structure Request where
  ip : String
  tag : String
deriving DecidableEq, Repr

/-- One observable effect of the returned middleware on the fiber context,
in program order. allowCall records the invocation of limiter.Allow with
the key and limit that were passed; handlerCalled marks the invocation of
the configured limit handler, whose own effects follow it in the trace. -/
inductive Action where
  | next
  | allowCall (key : String) (limit : Limit)
  | setHeader (name value : String)
  | status (code : Int)
  | send (s : String)
  | handlerCalled
deriving DecidableEq, Repr

/-- fiber_limiter.Config (src/main.go). Function-valued fields that may be
nil in Go are Options; a custom Handler is represented by the effect trace
it performs on the context. The Rediser pointer is abstracted to its
presence. pfx embeds the Prefix field. -/
structure Config where
  rediserPresent : Bool
  max : Int
  burst : Int
  statusCode : Int
  message : String
  algorithm : String
  pfx : String
  period : Int
  filter : Option (Request → Bool)
  key : Option (Request → String)
  handler : Option (List Action)

/-- The constant SimpleAlgorithm of src/main.go. -/
def simpleAlgorithm : String := "simple"

/-- The constant GCRAAlgorithm of src/main.go. -/
def gcraAlgorithm : String := "gcra"

/-- The constant DefaultKeyPrefix of src/main.go. -/
def defaultKeyPfx : String := "fiber_limiter"

/-- time.Minute in nanoseconds (Go durations are int64 nanoseconds). -/
def timeMinute : Int := 60 * 1000000000

/-- http.StatusTooManyRequests. -/
def statusTooManyRequests : Int := 429

/-- The default Message applied by New. -/
def defaultMessage : String := "Too many requests, please try again later."

/-- The Algorithm zero-value write of New (src/main.go lines 88-90). -/
def dAlgorithm (config : Config) : Config :=
  if config.algorithm = "" then { config with algorithm := simpleAlgorithm } else config

/-- The Period zero-value write of New (src/main.go lines 92-94). -/
def dPeriod (config : Config) : Config :=
  if config.period = 0 then { config with period := timeMinute } else config

/-- The Max zero-value write of New (src/main.go lines 96-98). -/
def dMax (config : Config) : Config :=
  if config.max = 0 then { config with max := 10 } else config

/-- The Burst zero-value write of New (src/main.go lines 100-102). -/
def dBurst (config : Config) : Config :=
  if config.burst = 0 then { config with burst := 10 } else config

/-- The Prefix zero-value write of New (src/main.go lines 104-106). -/
def dPfx (config : Config) : Config :=
  if config.pfx = "" then { config with pfx := defaultKeyPfx } else config

/-- The Message zero-value write of New (src/main.go lines 108-110). -/
def dMessage (config : Config) : Config :=
  if config.message = "" then { config with message := defaultMessage } else config

/-- The StatusCode zero-value write of New (src/main.go lines 110-112). -/
def dStatusCode (config : Config) : Config :=
  if config.statusCode = 0 then { config with statusCode := statusTooManyRequests } else config

/-- The zero-value defaulting New performs on its local copy of the config
(src/main.go lines 88-112): the seven field writes in source order. The
Handler and Key defaults are closures over the mutable local config and
are therefore resolved at dispatch time by handlerActions and keyOf
below. -/
def applyDefaults (config : Config) : Config :=
  dStatusCode (dMessage (dPfx (dBurst (dMax (dPeriod (dAlgorithm config))))))

/-- Key resolution at dispatch: config.Key when set, else the default
closure returning c.IP() (src/main.go lines 80-84). -/
def keyOf (config : Config) (r : Request) : String :=
  match config.key with
  | some k => k r
  | none => r.ip

/-- Limit-handler resolution at dispatch: the configured Handler when set,
else the default closure writing the (defaulted) status code and message
(src/main.go lines 74-78). -/
def handlerActions (config : Config) : List Action :=
  match config.handler with
  | some a => a
  | none => [.status config.statusCode, .send config.message]

/-- The go_limiter.Limit value New builds once from the defaulted config
(src/main.go lines 115-120). -/
def mkLimit (config : Config) : Limit :=
  { period := config.period
    algorithm := config.algorithm
    rate := config.max
    burst := config.burst }

/-- Outcome of New: Go panic with the error message, or the constructed
middleware state (the defaulted config and the single Limit value the
returned closure captures). -/
inductive NewResult where
  | panicked (msg : String)
  | made (config : Config) (limit : Limit)

/-- New (src/main.go lines 68-123): panics when Rediser is nil, otherwise
defaults the local copy of the config and builds the Limit passed to every
Allow call of the returned closure. -/
def New (config : Config) : NewResult :=
  if config.rediserPresent = false then
    .panicked "redis client is missing"
  else
    let config := applyDefaults config
    .made config (mkLimit config)

/-- go_limiter.Result as consumed by the middleware: Allowed, Remaining,
RetryAfter and ResetAfter (durations in nanoseconds). -/
structure AllowRes where
  allowed : Bool
  remaining : Int
  retryAfter : Int
  resetAfter : Int
deriving DecidableEq, Repr

/-- Go time: Unix() of a nanosecond timestamp is its second count, rounded
toward negative infinity. -/
def unixSec (tns : Int) : Int := tns.ediv 1000000000

/-- strconv.FormatInt(i, 10) and strconv.Itoa agree with decimal printing
of the integer. -/
def formatInt (i : Int) : String := toString i

/-- Whether the filter branch skips the middleware: config.Filter is
non-nil and returns true (src/main.go lines 126-130). -/
def filterSkips (config : Config) (r : Request) : Bool :=
  match config.filter with
  | some f => f r
  | none => false

/-- One invocation of the closure returned by New (src/main.go lines
125-155), as the trace of its effects. outcome is the reply of
limiter.Allow for this request (a store error or a Result); now is
time.Now() in nanoseconds. The trace mirrors the source line by line:
filter skip, the Allow call, the pass-on-error branch, the rejection
branch (handler then Retry-After), and the admission branch (three
X-RateLimit headers then Next). -/
def handle (config : Config) (limit : Limit) (outcome : Except String AllowRes)
    (now : Int) (r : Request) : List Action :=
  if filterSkips config r then
    [.next]
  else
    .allowCall (keyOf config r) limit ::
    match outcome with
    | .error _ => [.next]
    | .ok result =>
      if result.allowed = false then
        .handlerCalled :: handlerActions config ++
          [.setHeader "Retry-After" (formatInt (unixSec (now + result.retryAfter)))]
      else
        [.setHeader "X-RateLimit-Limit" (formatInt config.max),
         .setHeader "X-RateLimit-Remaining" (formatInt result.remaining),
         .setHeader "X-RateLimit-Reset" (formatInt (unixSec (now + result.resetAfter))),
         .next]

/-- The all-zero Config (every field at its Go zero value) with the store
present; used to exercise the defaulting path. -/
def zeroCfg : Config :=
  { rediserPresent := true
    max := 0
    burst := 0
    statusCode := 0
    message := ""
    algorithm := ""
    pfx := ""
    period := 0
    filter := none
    key := none
    handler := none }

/-- Modelled from the spec: the two interchangeable rate-algorithm
strategies of the go_limiter engine (spec section 2: Sliding Window and
GCRA), whose code is not under src/. -/
inductive Algo where
  | slidingWindow
  | gcra
deriving DecidableEq, Repr

/-- Modelled from the spec: go_limiter's dispatch from Limit.Algorithm to
a strategy is not under src/. Per the spec (sections 2, 4 and the
glossary) the engine offers exactly the Sliding Window and GCRA
strategies; the middleware's simple algorithm tag selects the
sliding-window (fixed-window counter) strategy — the glossary records
that the fixed-window counter runs under the sliding-window name — and
the gcra tag selects GCRA. Unknown tags select nothing. -/
def algorithmOf : String → Option Algo
  | "simple" => some .slidingWindow
  | "gcra" => some .gcra
  | _ => none

/-- Modelled from the spec: one sliding-window Check (spec 4.1), whose
code lives in go_limiter, not under src/. A call atomically increments
the period-bucket counter; the request is admitted exactly when the new
count does not exceed the limit's rate. Returns the new counter value and
the admission bit. -/
def slidingWindowStep (rate count : Int) : Int × Bool :=
  (count + 1, decide (count + 1 ≤ rate))

/-- Modelled from the spec: N concurrent Allow calls on one fresh key
under the sliding-window strategy. Each call is a single atomic
increment-and-test against the shared store, and the store linearizes
concurrent increments (spec sections 4.1, 4.4, 5), so every interleaving
of the N calls is observationally some sequence of the N atomic steps
from a zero counter. Returns the final counter and how many calls were
admitted. -/
def runConcurrentAllow (rate : Int) : Nat → Int × Nat
  | 0 => (0, 0)
  | n + 1 =>
    let p := runConcurrentAllow rate n
    let s := slidingWindowStep rate p.1
    (s.1, if s.2 then p.2 + 1 else p.2)

/-- Modelled from the spec: one GCRA check (spec 4.2), whose code lives in
go_limiter, not under src/. t is the emission interval period divided by
rate, tau the burst tolerance t times burst minus one; the stored
theoretical arrival time is 0 when absent and then treated as now. The
read-compute-write is atomic (spec: compare-and-swap). Returns the new
stored value and the admission bit. -/
def gcraStep (now t tau tat : Int) : Int × Bool :=
  let tatEff := if tat = 0 then now else tat
  let allowAt := max tatEff now
  if now ≥ allowAt - tau then (max tatEff now + t, true) else (tat, false)

/-- Modelled from the spec: N concurrent Allow calls on one fresh key
under GCRA, all observing the same instant now; by the atomicity of the
stored-value update (spec 4.2, 5) every interleaving is some sequence of
the N atomic steps from an absent stored value. Returns the final stored
value and how many calls were admitted. -/
def runConcurrentGCRA (now t tau : Int) : Nat → Int × Nat
  | 0 => (0, 0)
  | n + 1 =>
    let p := runConcurrentGCRA now t tau n
    let s := gcraStep now t tau p.1
    (s.1, if s.2 then p.2 + 1 else p.2)

/-- A call frame for New: the caller's Config variable and New's parameter.
Go passes the struct by value, so the parameter starts as a copy of the
caller's value. -/
structure NewFrame where
  caller : Config
  param : Config

/-- The seven zero-value field writes New performs, in source order
(src/main.go lines 88-112). Every assignment in New's body targets the
parameter variable, never the caller's. -/
def newWrites : List (Config → Config) :=
  [dAlgorithm, dPeriod, dMax, dBurst, dPfx, dMessage, dStatusCode]

/-- Running New's defaulting writes on a call frame: each write updates
the parameter component only. -/
def runNewWrites (f : NewFrame) : NewFrame :=
  { f with param := newWrites.foldl (fun c w => w c) f.param }

/-- Calling New from a caller holding config value caller: the frame is
built with the parameter initialized to a copy of the caller's value
(Go pass-by-value), then New's writes run. -/
def invokeNew (caller : Config) : NewFrame :=
  runNewWrites { caller := caller, param := caller }

theorem dAlgorithm_eq (c : Config) :
    dAlgorithm c = { c with algorithm := if c.algorithm = "" then simpleAlgorithm else c.algorithm } := by
  unfold dAlgorithm
  split_ifs <;> rfl

theorem dPeriod_eq (c : Config) :
    dPeriod c = { c with period := if c.period = 0 then timeMinute else c.period } := by
  unfold dPeriod
  split_ifs <;> rfl

theorem dMax_eq (c : Config) :
    dMax c = { c with max := if c.max = 0 then 10 else c.max } := by
  unfold dMax
  split_ifs <;> rfl

theorem dBurst_eq (c : Config) :
    dBurst c = { c with burst := if c.burst = 0 then 10 else c.burst } := by
  unfold dBurst
  split_ifs <;> rfl

theorem dPfx_eq (c : Config) :
    dPfx c = { c with pfx := if c.pfx = "" then defaultKeyPfx else c.pfx } := by
  unfold dPfx
  split_ifs <;> rfl

theorem dMessage_eq (c : Config) :
    dMessage c = { c with message := if c.message = "" then defaultMessage else c.message } := by
  unfold dMessage
  split_ifs <;> rfl

theorem dStatusCode_eq (c : Config) :
    dStatusCode c = { c with statusCode := if c.statusCode = 0 then statusTooManyRequests else c.statusCode } := by
  unfold dStatusCode
  split_ifs <;> rfl

theorem applyDefaults_eq (c : Config) :
    applyDefaults c =
      { c with
        algorithm := if c.algorithm = "" then simpleAlgorithm else c.algorithm
        period := if c.period = 0 then timeMinute else c.period
        max := if c.max = 0 then 10 else c.max
        burst := if c.burst = 0 then 10 else c.burst
        pfx := if c.pfx = "" then defaultKeyPfx else c.pfx
        message := if c.message = "" then defaultMessage else c.message
        statusCode := if c.statusCode = 0 then statusTooManyRequests else c.statusCode } := by
  unfold applyDefaults
  rw [dAlgorithm_eq, dPeriod_eq, dMax_eq, dBurst_eq, dPfx_eq, dMessage_eq, dStatusCode_eq]

theorem applyDefaults_max (c : Config) :
    (applyDefaults c).max = if c.max = 0 then 10 else c.max := by
  rw [applyDefaults_eq]

theorem applyDefaults_burst (c : Config) :
    (applyDefaults c).burst = if c.burst = 0 then 10 else c.burst := by
  rw [applyDefaults_eq]

theorem applyDefaults_period (c : Config) :
    (applyDefaults c).period = if c.period = 0 then timeMinute else c.period := by
  rw [applyDefaults_eq]

theorem applyDefaults_statusCode (c : Config) :
    (applyDefaults c).statusCode = if c.statusCode = 0 then statusTooManyRequests else c.statusCode := by
  rw [applyDefaults_eq]

theorem applyDefaults_algorithm (c : Config) :
    (applyDefaults c).algorithm = if c.algorithm = "" then simpleAlgorithm else c.algorithm := by
  rw [applyDefaults_eq]

theorem applyDefaults_pfx (c : Config) :
    (applyDefaults c).pfx = if c.pfx = "" then defaultKeyPfx else c.pfx := by
  rw [applyDefaults_eq]

theorem applyDefaults_message (c : Config) :
    (applyDefaults c).message = if c.message = "" then defaultMessage else c.message := by
  rw [applyDefaults_eq]

theorem applyDefaults_key (c : Config) : (applyDefaults c).key = c.key := by
  rw [applyDefaults_eq]

theorem applyDefaults_handler (c : Config) : (applyDefaults c).handler = c.handler := by
  rw [applyDefaults_eq]

theorem applyDefaults_filter (c : Config) : (applyDefaults c).filter = c.filter := by
  rw [applyDefaults_eq]

theorem runConcurrentAllow_succ (rate : Int) (n : Nat) :
    runConcurrentAllow rate (n + 1) =
      ((runConcurrentAllow rate n).1 + 1,
       if (runConcurrentAllow rate n).1 + 1 ≤ rate then (runConcurrentAllow rate n).2 + 1
       else (runConcurrentAllow rate n).2) := by
  simp only [runConcurrentAllow, slidingWindowStep, decide_eq_true_eq]

theorem runConcurrentAllow_snd_le_fst (rate : Int) (n : Nat) :
    ((runConcurrentAllow rate n).2 : Int) ≤ (runConcurrentAllow rate n).1 := by
  induction n with
  | zero => simp [runConcurrentAllow]
  | succ n ih =>
    rw [runConcurrentAllow_succ]
    by_cases h : (runConcurrentAllow rate n).1 + 1 ≤ rate
    · rw [if_pos h]
      push_cast
      omega
    · rw [if_neg h]
      omega

theorem runConcurrentAllow_admitted_le (rate : Int) (n : Nat) (h : 0 ≤ rate) :
    ((runConcurrentAllow rate n).2 : Int) ≤ rate := by
  induction n with
  | zero => simpa [runConcurrentAllow] using h
  | succ n ih =>
    have hle := runConcurrentAllow_snd_le_fst rate n
    rw [runConcurrentAllow_succ]
    by_cases hc : (runConcurrentAllow rate n).1 + 1 ≤ rate
    · rw [if_pos hc]
      push_cast
      omega
    · rw [if_neg hc]
      exact ih

theorem gcraStep_zero (now t tau : Int) (htau : 0 ≤ tau) :
    gcraStep now t tau 0 = (now + t, true) := by
  simp only [gcraStep, ite_true, eq_self_iff_true, max_self]
  rw [if_pos (show now ≥ now - tau by omega)]

theorem gcraStep_pos (now t tau tat : Int) (hne : tat ≠ 0) (hle : now ≤ tat) :
    gcraStep now t tau tat = if now ≥ tat - tau then (tat + t, true) else (tat, false) := by
  simp only [gcraStep]
  rw [if_neg hne, max_eq_left hle]

theorem runConcurrentGCRA_succ (now t tau : Int) (n : Nat) :
    runConcurrentGCRA now t tau (n + 1) =
      ((gcraStep now t tau (runConcurrentGCRA now t tau n).1).1,
       if (gcraStep now t tau (runConcurrentGCRA now t tau n).1).2 then
         (runConcurrentGCRA now t tau n).2 + 1
       else (runConcurrentGCRA now t tau n).2) := rfl

theorem runConcurrentGCRA_inv (now t b : Int) (n : Nat)
    (hnow : 0 < now) (ht : 0 < t) (hb : 1 ≤ b) :
    ((runConcurrentGCRA now t (t * (b - 1)) n).2 : Int) ≤ b ∧
    (runConcurrentGCRA now t (t * (b - 1)) n).1 =
      (if (runConcurrentGCRA now t (t * (b - 1)) n).2 = 0 then 0
       else now + ((runConcurrentGCRA now t (t * (b - 1)) n).2 : Int) * t) := by
  induction n with
  | zero =>
    constructor
    · simpa [runConcurrentGCRA] using le_trans one_pos.le hb
    · simp [runConcurrentGCRA]
  | succ n ih =>
    obtain ⟨iha, ihtat⟩ := ih
    rw [runConcurrentGCRA_succ]
    by_cases h0 : (runConcurrentGCRA now t (t * (b - 1)) n).2 = 0
    · have htat0 : (runConcurrentGCRA now t (t * (b - 1)) n).1 = 0 := by
        rw [ihtat, if_pos h0]
      have htau : (0 : Int) ≤ t * (b - 1) := mul_nonneg ht.le (by omega)
      rw [htat0, gcraStep_zero now t _ htau]
      rw [if_pos rfl, h0]
      refine ⟨by simpa using hb, ?_⟩
      rw [if_neg (by omega : (0 : Nat) + 1 ≠ 0)]
      push_cast
      ring
    · have hpos : (0 : Int) < ((runConcurrentGCRA now t (t * (b - 1)) n).2 : Int) := by
        exact_mod_cast Nat.pos_of_ne_zero h0
      have htat : (runConcurrentGCRA now t (t * (b - 1)) n).1 =
          now + ((runConcurrentGCRA now t (t * (b - 1)) n).2 : Int) * t := by
        rw [ihtat, if_neg h0]
      have hprod : (0 : Int) < ((runConcurrentGCRA now t (t * (b - 1)) n).2 : Int) * t :=
        mul_pos hpos ht
      have h1pos : (0 : Int) < (runConcurrentGCRA now t (t * (b - 1)) n).1 := by
        rw [htat]
        linarith
      have hge : now ≤ (runConcurrentGCRA now t (t * (b - 1)) n).1 := by
        rw [htat]
        linarith
      rw [gcraStep_pos now t _ _ (ne_of_gt h1pos) hge]
      by_cases hc : now ≥ (runConcurrentGCRA now t (t * (b - 1)) n).1 - t * (b - 1)
      · rw [if_pos hc, if_pos rfl]
        have hcond : ((runConcurrentGCRA now t (t * (b - 1)) n).2 : Int) * t ≤ t * (b - 1) := by
          rw [htat] at hc
          linarith
        have hab : ((runConcurrentGCRA now t (t * (b - 1)) n).2 : Int) ≤ b - 1 := by
          refine le_of_mul_le_mul_left ?_ ht
          calc t * ((runConcurrentGCRA now t (t * (b - 1)) n).2 : Int)
              = ((runConcurrentGCRA now t (t * (b - 1)) n).2 : Int) * t := mul_comm _ _
            _ ≤ t * (b - 1) := hcond
        constructor
        · push_cast
          omega
        · rw [if_neg (by omega : (runConcurrentGCRA now t (t * (b - 1)) n).2 + 1 ≠ 0)]
          rw [htat]
          push_cast
          ring
      · rw [if_neg hc, if_neg Bool.false_ne_true]
        exact ⟨iha, by rw [if_neg h0, htat]⟩

theorem handle_filter (config : Config) (limit : Limit) (outcome : Except String AllowRes)
    (now : Int) (r : Request) (h : filterSkips config r = true) :
    handle config limit outcome now r = [.next] := by
  simp [handle, h]

theorem handle_error (config : Config) (limit : Limit) (e : String)
    (now : Int) (r : Request) (h : filterSkips config r = false) :
    handle config limit (.error e) now r = [.allowCall (keyOf config r) limit, .next] := by
  simp [handle, h]

theorem handle_rejected (config : Config) (limit : Limit) (res : AllowRes)
    (now : Int) (r : Request) (h : filterSkips config r = false) (ha : res.allowed = false) :
    handle config limit (.ok res) now r =
      .allowCall (keyOf config r) limit :: .handlerCalled :: handlerActions config ++
        [.setHeader "Retry-After" (formatInt (unixSec (now + res.retryAfter)))] := by
  simp [handle, h, ha]

theorem handle_admitted (config : Config) (limit : Limit) (res : AllowRes)
    (now : Int) (r : Request) (h : filterSkips config r = false) (ha : res.allowed = true) :
    handle config limit (.ok res) now r =
      [.allowCall (keyOf config r) limit,
       .setHeader "X-RateLimit-Limit" (formatInt config.max),
       .setHeader "X-RateLimit-Remaining" (formatInt res.remaining),
       .setHeader "X-RateLimit-Reset" (formatInt (unixSec (now + res.resetAfter))),
       .next] := by
  simp [handle, h, ha]

theorem New_made (c : Config) (cfg : Config) (lim : Limit) (h : New c = .made cfg lim) :
    c.rediserPresent = true ∧ cfg = applyDefaults c ∧ lim = mkLimit (applyDefaults c) := by
  have hpres : c.rediserPresent = true := by
    cases hcp : c.rediserPresent with
    | true => rfl
    | false =>
      rw [New, if_pos (by rw [hcp])] at h
      exact NewResult.noConfusion h
  have hNew : New c = .made (applyDefaults c) (mkLimit (applyDefaults c)) := by
    rw [New, if_neg (by rw [hpres]; exact fun hf => Bool.noConfusion hf)]
  rw [hNew] at h
  injection h with h1 h2
  exact ⟨hpres, h1.symm, h2.symm⟩

/-- C1: the claim says a store error is governed by a skipOnError policy
whose default (false) surfaces the error as a server error response. The
code has no such policy: on any store error the middleware calls Next,
silently letting the request proceed, and writes no status, body or
header. This closed theorem evaluates the middleware, under the fully
defaulted configuration, at a request whose Allow call fails: the trace
is exactly the Allow call followed by Next — no error response. -/
theorem c1_store_error_passes_request :
    handle (applyDefaults zeroCfg) (mkLimit (applyDefaults zeroCfg))
        (.error "redis: connection refused") 1700000000000000000
        { ip := "1.2.3.4", tag := "" } =
      [.allowCall "1.2.3.4" (mkLimit (applyDefaults zeroCfg)), .next] := rfl

/-- C2: among N concurrent Allow calls on one fresh key, at most rate of
them are admitted under the sliding-window strategy, and at most burst of
them (its configured instantaneous budget) under GCRA, for every
interleaving of the atomic store operations (each call is a single atomic
step, so every interleaving is some sequence of the N steps). -/
theorem c2_concurrent_admissions (rate b t now : Int) (n : Nat)
    (hr : 0 ≤ rate) (hb : 1 ≤ b) (ht : 0 < t) (hnow : 0 < now) :
    ((runConcurrentAllow rate n).2 : Int) ≤ rate ∧
    ((runConcurrentGCRA now t (t * (b - 1)) n).2 : Int) ≤ b :=
  ⟨runConcurrentAllow_admitted_le rate n hr,
   (runConcurrentGCRA_inv now t b n hnow ht hb).1⟩

/-- Witness for C2 at rate 3, burst 3, emission interval 5, now 7, with
10 concurrent calls. -/
theorem c2_concurrent_admissions_witness :
    (0 : Int) ≤ 3 ∧ (1 : Int) ≤ 3 ∧ (0 : Int) < 5 ∧ (0 : Int) < 7 ∧
    (((runConcurrentAllow 3 10).2 : Int) ≤ 3 ∧
     ((runConcurrentGCRA 7 5 (5 * (3 - 1)) 10).2 : Int) ≤ 3) :=
  ⟨by decide, by decide, by decide, by decide,
   c2_concurrent_admissions 3 3 5 7 10 (by decide) (by decide) (by decide) (by decide)⟩

/-- C3: New panics with the missing-store error exactly when the Rediser
is absent, so the configuration error is raised at construction time;
with a store present New returns the middleware built from the defaulted
configuration and never raises that error (the per-request function
handle is total and has no configuration-error outcome). -/
theorem c3_config_error_at_construction (c : Config) :
    ((∃ m, New c = .panicked m) ↔ c.rediserPresent = false) ∧
    (c.rediserPresent = true →
      New c = .made (applyDefaults c) (mkLimit (applyDefaults c))) := by
  constructor
  · constructor
    · rintro ⟨m, hm⟩
      cases hcp : c.rediserPresent with
      | true =>
        rw [New, if_neg (by rw [hcp]; exact fun hf => Bool.noConfusion hf)] at hm
        exact NewResult.noConfusion hm
      | false => rfl
    · intro h
      exact ⟨"redis client is missing", by rw [New, if_pos h]⟩
  · intro h
    rw [New, if_neg (by rw [h]; exact fun hf => Bool.noConfusion hf)]

/-- Witness for C3 at the all-zero configuration with the store present
and at the all-zero configuration with the store absent. -/
theorem c3_config_error_at_construction_witness :
    (zeroCfg.rediserPresent = true →
      New zeroCfg = .made (applyDefaults zeroCfg) (mkLimit (applyDefaults zeroCfg))) ∧
    ((∃ m, New { zeroCfg with rediserPresent := false } = .panicked m) ↔
      ({ zeroCfg with rediserPresent := false } : Config).rediserPresent = false) :=
  ⟨(c3_config_error_at_construction zeroCfg).2,
   (c3_config_error_at_construction { zeroCfg with rediserPresent := false }).1⟩

/-- C4: when the decision is allowed, the gate sets X-RateLimit-Limit to
the configured max, X-RateLimit-Remaining to the decision's remaining
value and X-RateLimit-Reset to the Unix second of now plus reset-after,
and then calls Next, in exactly that order. -/
theorem c4_admitted_headers (config : Config) (limit : Limit) (res : AllowRes)
    (now : Int) (r : Request)
    (hf : filterSkips config r = false) (ha : res.allowed = true) :
    handle config limit (.ok res) now r =
      [.allowCall (keyOf config r) limit,
       .setHeader "X-RateLimit-Limit" (formatInt config.max),
       .setHeader "X-RateLimit-Remaining" (formatInt res.remaining),
       .setHeader "X-RateLimit-Reset" (formatInt (unixSec (now + res.resetAfter))),
       .next] :=
  handle_admitted config limit res now r hf ha

/-- Witness for C4 at the defaulted zero configuration with an admitted
decision. -/
theorem c4_admitted_headers_witness :
    filterSkips (applyDefaults zeroCfg) { ip := "9.9.9.9", tag := "" } = false ∧
    ({ allowed := true, remaining := 9, retryAfter := 0, resetAfter := 60000000000 } : AllowRes).allowed = true ∧
    handle (applyDefaults zeroCfg) (mkLimit (applyDefaults zeroCfg))
        (.ok { allowed := true, remaining := 9, retryAfter := 0, resetAfter := 60000000000 })
        1000000000 { ip := "9.9.9.9", tag := "" } =
      [.allowCall (keyOf (applyDefaults zeroCfg) { ip := "9.9.9.9", tag := "" }) (mkLimit (applyDefaults zeroCfg)),
       .setHeader "X-RateLimit-Limit" (formatInt (applyDefaults zeroCfg).max),
       .setHeader "X-RateLimit-Remaining" (formatInt (9 : Int)),
       .setHeader "X-RateLimit-Reset" (formatInt (unixSec (1000000000 + 60000000000))),
       .next] :=
  ⟨rfl, rfl,
   c4_admitted_headers (applyDefaults zeroCfg) (mkLimit (applyDefaults zeroCfg))
     { allowed := true, remaining := 9, retryAfter := 0, resetAfter := 60000000000 }
     1000000000 { ip := "9.9.9.9", tag := "" } rfl rfl⟩

/-- C5: when the decision is rejected, the gate invokes the configured
limit handler (by default the status-and-message writer), sets the
Retry-After header to the Unix second of now plus retry-after, and never
calls Next itself (provided the custom handler does not call Next on its
own, which the default one does not). -/
theorem c5_rejected_handler_and_retry_after (config : Config) (limit : Limit)
    (res : AllowRes) (now : Int) (r : Request)
    (hf : filterSkips config r = false) (ha : res.allowed = false)
    (hh : Action.next ∉ handlerActions config) :
    handle config limit (.ok res) now r =
      .allowCall (keyOf config r) limit :: .handlerCalled :: handlerActions config ++
        [.setHeader "Retry-After" (formatInt (unixSec (now + res.retryAfter)))] ∧
    Action.next ∉ handle config limit (.ok res) now r := by
  have heq := handle_rejected config limit res now r hf ha
  refine ⟨heq, ?_⟩
  rw [heq]
  intro hmem
  simp only [List.mem_cons, List.mem_append, List.mem_singleton] at hmem
  rcases hmem with (h | h | h) | h | h
  · exact Action.noConfusion h
  · exact Action.noConfusion h
  · exact hh h
  · exact Action.noConfusion h
  · exact absurd h (List.not_mem_nil _)

/-- Witness for C5 at the defaulted zero configuration (default handler)
with a rejected decision. -/
theorem c5_rejected_handler_and_retry_after_witness :
    filterSkips (applyDefaults zeroCfg) { ip := "9.9.9.9", tag := "" } = false ∧
    ({ allowed := false, remaining := 0, retryAfter := 30000000000, resetAfter := 0 } : AllowRes).allowed = false ∧
    Action.next ∉ handlerActions (applyDefaults zeroCfg) ∧
    (handle (applyDefaults zeroCfg) (mkLimit (applyDefaults zeroCfg))
        (.ok { allowed := false, remaining := 0, retryAfter := 30000000000, resetAfter := 0 })
        1000000000 { ip := "9.9.9.9", tag := "" } =
      .allowCall (keyOf (applyDefaults zeroCfg) { ip := "9.9.9.9", tag := "" }) (mkLimit (applyDefaults zeroCfg)) ::
        .handlerCalled :: handlerActions (applyDefaults zeroCfg) ++
        [.setHeader "Retry-After" (formatInt (unixSec (1000000000 + 30000000000)))] ∧
     Action.next ∉ handle (applyDefaults zeroCfg) (mkLimit (applyDefaults zeroCfg))
        (.ok { allowed := false, remaining := 0, retryAfter := 30000000000, resetAfter := 0 })
        1000000000 { ip := "9.9.9.9", tag := "" }) :=
  ⟨rfl, rfl, by decide,
   c5_rejected_handler_and_retry_after (applyDefaults zeroCfg) (mkLimit (applyDefaults zeroCfg))
     { allowed := false, remaining := 0, retryAfter := 30000000000, resetAfter := 0 }
     1000000000 { ip := "9.9.9.9", tag := "" } rfl rfl (by decide)⟩

/-- C6: every configuration field left at its zero value receives the
documented default: max 10, burst 10, period one minute, the simple
algorithm tag (which selects the sliding-window strategy of the engine),
the fixed namespace prefix, the remote IP as key extractor, the
status-and-message writer as limit handler, status 429 and the fixed
rejection message. -/
theorem c6_zero_fields_get_documented_defaults (c : Config) :
    (c.max = 0 → (applyDefaults c).max = 10) ∧
    (c.burst = 0 → (applyDefaults c).burst = 10) ∧
    (c.period = 0 → (applyDefaults c).period = 60 * 1000000000) ∧
    (c.algorithm = "" → (applyDefaults c).algorithm = simpleAlgorithm ∧
      algorithmOf (applyDefaults c).algorithm = some .slidingWindow) ∧
    (c.pfx = "" → (applyDefaults c).pfx = "fiber_limiter") ∧
    (c.key = none → ∀ r, keyOf (applyDefaults c) r = r.ip) ∧
    (c.handler = none → handlerActions (applyDefaults c) =
      [.status (applyDefaults c).statusCode, .send (applyDefaults c).message]) ∧
    (c.statusCode = 0 → (applyDefaults c).statusCode = 429) ∧
    (c.message = "" →
      (applyDefaults c).message = "Too many requests, please try again later.") := by
  refine ⟨?_, ?_, ?_, ?_, ?_, ?_, ?_, ?_, ?_⟩ <;> intro h
  · rw [applyDefaults_max, if_pos h]
  · rw [applyDefaults_burst, if_pos h]
  · rw [applyDefaults_period, if_pos h]
    rfl
  · refine ⟨by rw [applyDefaults_algorithm, if_pos h], ?_⟩
    rw [applyDefaults_algorithm, if_pos h]
    rfl
  · rw [applyDefaults_pfx, if_pos h]
    rfl
  · intro r
    simp [keyOf, applyDefaults_key, h]
  · simp [handlerActions, applyDefaults_handler, h]
  · rw [applyDefaults_statusCode, if_pos h]
    rfl
  · rw [applyDefaults_message, if_pos h]
    rfl

/-- Witness for C6 at the all-zero configuration. -/
theorem c6_zero_fields_get_documented_defaults_witness :
    zeroCfg.max = 0 ∧ (applyDefaults zeroCfg).max = 10 ∧
    zeroCfg.algorithm = "" ∧
    algorithmOf (applyDefaults zeroCfg).algorithm = some .slidingWindow ∧
    zeroCfg.statusCode = 0 ∧ (applyDefaults zeroCfg).statusCode = 429 :=
  ⟨rfl, (c6_zero_fields_get_documented_defaults zeroCfg).1 rfl,
   rfl, ((c6_zero_fields_get_documented_defaults zeroCfg).2.2.2.1 rfl).2,
   rfl, (c6_zero_fields_get_documented_defaults zeroCfg).2.2.2.2.2.2.2.1 rfl⟩

/-- C7: when the configured filter accepts a request the gate is bypassed
entirely: the middleware calls Next and nothing else — no Allow call on
the limiter, no header is set, the limit handler is not invoked and no
status or body is written. -/
theorem c7_filter_bypasses_gate (config : Config) (limit : Limit)
    (outcome : Except String AllowRes) (now : Int) (r : Request)
    (f : Request → Bool) (hfil : config.filter = some f) (htrue : f r = true) :
    handle config limit outcome now r = [.next] ∧
    (∀ k l, Action.allowCall k l ∉ handle config limit outcome now r) ∧
    (∀ nm v, Action.setHeader nm v ∉ handle config limit outcome now r) ∧
    Action.handlerCalled ∉ handle config limit outcome now r ∧
    (∀ sc, Action.status sc ∉ handle config limit outcome now r) ∧
    (∀ s, Action.send s ∉ handle config limit outcome now r) := by
  have hskip : filterSkips config r = true := by simp [filterSkips, hfil, htrue]
  have heq := handle_filter config limit outcome now r hskip
  refine ⟨heq, ?_, ?_, ?_, ?_, ?_⟩ <;> simp [heq]

/-- Witness for C7 with an always-true filter on the otherwise-zero
configuration. -/
theorem c7_filter_bypasses_gate_witness :
    ({ zeroCfg with filter := some fun _ => true } : Config).filter = some (fun _ => true) ∧
    (fun (_ : Request) => true) { ip := "1.2.3.4", tag := "" } = true ∧
    (handle { zeroCfg with filter := some fun _ => true } (mkLimit (applyDefaults zeroCfg))
        (.error "down") 0 { ip := "1.2.3.4", tag := "" } = [.next] ∧
     (∀ k l, Action.allowCall k l ∉ handle { zeroCfg with filter := some fun _ => true }
        (mkLimit (applyDefaults zeroCfg)) (.error "down") 0 { ip := "1.2.3.4", tag := "" }) ∧
     (∀ nm v, Action.setHeader nm v ∉ handle { zeroCfg with filter := some fun _ => true }
        (mkLimit (applyDefaults zeroCfg)) (.error "down") 0 { ip := "1.2.3.4", tag := "" }) ∧
     Action.handlerCalled ∉ handle { zeroCfg with filter := some fun _ => true }
        (mkLimit (applyDefaults zeroCfg)) (.error "down") 0 { ip := "1.2.3.4", tag := "" } ∧
     (∀ sc, Action.status sc ∉ handle { zeroCfg with filter := some fun _ => true }
        (mkLimit (applyDefaults zeroCfg)) (.error "down") 0 { ip := "1.2.3.4", tag := "" }) ∧
     (∀ s, Action.send s ∉ handle { zeroCfg with filter := some fun _ => true }
        (mkLimit (applyDefaults zeroCfg)) (.error "down") 0 { ip := "1.2.3.4", tag := "" })) :=
  ⟨rfl, rfl,
   c7_filter_bypasses_gate { zeroCfg with filter := some fun _ => true }
     (mkLimit (applyDefaults zeroCfg)) (.error "down") 0 { ip := "1.2.3.4", tag := "" }
     (fun _ => true) rfl rfl⟩

/-- C8: the Limit New constructs is the single value built once from the
defaulted configuration — Rate its max, Burst its burst, with its period
and algorithm — and (as long as the custom limit handler does not itself
record an Allow call, which no fiber handler can) every Allow call the
returned middleware makes, on every request and outcome, carries exactly
that value. -/
theorem c8_limit_built_once_and_stable (c : Config) (cfg : Config) (lim : Limit)
    (h : New c = .made cfg lim)
    (hh : ∀ k l, Action.allowCall k l ∉ handlerActions cfg) :
    cfg = applyDefaults c ∧
    lim = mkLimit (applyDefaults c) ∧
    lim.rate = (applyDefaults c).max ∧
    lim.burst = (applyDefaults c).burst ∧
    lim.period = (applyDefaults c).period ∧
    lim.algorithm = (applyDefaults c).algorithm ∧
    (∀ outcome now r k l,
      Action.allowCall k l ∈ handle cfg lim outcome now r → l = lim) := by
  obtain ⟨hpres, hcfg, hlim⟩ := New_made c cfg lim h
  subst hcfg
  subst hlim
  refine ⟨rfl, rfl, rfl, rfl, rfl, rfl, ?_⟩
  intro outcome now r k l hmem
  by_cases hs : filterSkips (applyDefaults c) r
  · rw [handle_filter _ _ _ _ _ hs] at hmem
    simp at hmem
  · rw [Bool.not_eq_true] at hs
    cases outcome with
    | error e =>
      rw [handle_error _ _ _ _ _ hs] at hmem
      simp at hmem
      exact hmem.2
    | ok res =>
      cases hal : res.allowed with
      | false =>
        rw [handle_rejected _ _ _ _ _ hs hal] at hmem
        simp only [List.mem_cons, List.mem_append, List.mem_singleton] at hmem
        rcases hmem with (hx | hx | hx) | hx | hx
        · injection hx with h1 h2
        · exact Action.noConfusion hx
        · exact absurd hx (hh k l)
        · exact Action.noConfusion hx
        · exact absurd hx (List.not_mem_nil _)
      | true =>
        rw [handle_admitted _ _ _ _ _ hs hal] at hmem
        simp at hmem
        exact hmem.2

/-- Witness for C8 at the all-zero configuration with the default limit
handler. -/
theorem c8_limit_built_once_and_stable_witness :
    New zeroCfg = .made (applyDefaults zeroCfg) (mkLimit (applyDefaults zeroCfg)) ∧
    (∀ k l, Action.allowCall k l ∉ handlerActions (applyDefaults zeroCfg)) ∧
    (mkLimit (applyDefaults zeroCfg)).rate = (applyDefaults zeroCfg).max ∧
    (∀ outcome now r k l,
      Action.allowCall k l ∈ handle (applyDefaults zeroCfg) (mkLimit (applyDefaults zeroCfg)) outcome now r →
        l = mkLimit (applyDefaults zeroCfg)) :=
  ⟨rfl, fun k l => by simp [handlerActions, applyDefaults_handler, zeroCfg],
   (c8_limit_built_once_and_stable zeroCfg (applyDefaults zeroCfg) (mkLimit (applyDefaults zeroCfg))
      rfl (fun k l => by simp [handlerActions, applyDefaults_handler, zeroCfg])).2.2.1,
   (c8_limit_built_once_and_stable zeroCfg (applyDefaults zeroCfg) (mkLimit (applyDefaults zeroCfg))
      rfl (fun k l => by simp [handlerActions, applyDefaults_handler, zeroCfg])).2.2.2.2.2.2⟩

/-- C9: an explicit zero in Max, Burst, Period or StatusCode is
indistinguishable from an unset field and yields the default (10, 10, one
minute, 429); consequently the defaulted max is never zero and the Limit
any successful New builds never has a zero rate. -/
theorem c9_zero_equals_unset_no_zero_rate (c : Config) :
    (c.max = 0 → (applyDefaults c).max = 10) ∧
    (c.burst = 0 → (applyDefaults c).burst = 10) ∧
    (c.period = 0 → (applyDefaults c).period = timeMinute) ∧
    (c.statusCode = 0 → (applyDefaults c).statusCode = statusTooManyRequests) ∧
    (applyDefaults c).max ≠ 0 ∧
    (∀ cfg lim, New c = .made cfg lim → lim.rate ≠ 0) := by
  have hmaxne : (applyDefaults c).max ≠ 0 := by
    rw [applyDefaults_max]
    split_ifs with hz
    · decide
    · exact hz
  refine ⟨?_, ?_, ?_, ?_, hmaxne, ?_⟩
  · intro h
    rw [applyDefaults_max, if_pos h]
  · intro h
    rw [applyDefaults_burst, if_pos h]
  · intro h
    rw [applyDefaults_period, if_pos h]
  · intro h
    rw [applyDefaults_statusCode, if_pos h]
  · intro cfg lim h
    obtain ⟨hpres, hcfg, hlim⟩ := New_made c cfg lim h
    rw [hlim]
    exact hmaxne

/-- Witness for C9 at a configuration that explicitly sets Max, Burst,
Period and StatusCode to zero. -/
theorem c9_zero_equals_unset_no_zero_rate_witness :
    zeroCfg.max = 0 ∧ (applyDefaults zeroCfg).max = 10 ∧
    zeroCfg.period = 0 ∧ (applyDefaults zeroCfg).period = timeMinute ∧
    (applyDefaults zeroCfg).max ≠ 0 ∧
    (New zeroCfg = .made (applyDefaults zeroCfg) (mkLimit (applyDefaults zeroCfg)) →
      (mkLimit (applyDefaults zeroCfg)).rate ≠ 0) :=
  ⟨rfl, (c9_zero_equals_unset_no_zero_rate zeroCfg).1 rfl,
   rfl, (c9_zero_equals_unset_no_zero_rate zeroCfg).2.2.1 rfl,
   (c9_zero_equals_unset_no_zero_rate zeroCfg).2.2.2.2.1,
   fun h => (c9_zero_equals_unset_no_zero_rate zeroCfg).2.2.2.2.2
     (applyDefaults zeroCfg) (mkLimit (applyDefaults zeroCfg)) h⟩

/-- C10: New receives the Config by value, so its seven defaulting writes
act on the call frame's parameter copy only: after running them the
caller's Config is unchanged and the parameter holds exactly the
defaulted configuration. -/
theorem c10_caller_config_not_mutated (c : Config) :
    (invokeNew c).caller = c ∧ (invokeNew c).param = applyDefaults c :=
  ⟨rfl, rfl⟩

end FiberLimiter
